import Mathlib

/-!
Verification development for the APresentation slide renderer.

The development shallowly embeds the expression-property model and the
rich-text tokenizer / two-pass layout engine of
`src/presentation/util.rs` and `src/presentation/renderable.rs`.

Modelling conventions:
* Rust `f64` values are embedded as exact rationals (`ℚ`); the claims under
  study are structural (control flow, list shapes, comparisons on small
  integral values), not about floating-point rounding.
* Rust strings are embedded as `List Char` (`Str` below), and all string
  manipulation (splitting, regex-like matching) is re-implemented over
  `List Char` following the source code.
* External collaborators (the `meval` crate's expression parser, the `mlua`
  Lua runtime, the font metrics service, wall-clock date) are not code of
  this repository; they are embedded as explicit parameters (oracles) or,
  for the expression grammar, as a small evaluator modelled from the spec
  (see `mlex`/`mparseExpr` below).
* Recursions that are not structural use an explicit fuel argument that is
  always supplied large enough (bounded by the input length); this keeps
  every definition executable and kernel-friendly.
-/

/-- Characters of a piece of text, the embedding of a Rust string. -/
abbrev Str := List Char

/-- Repeated concatenation of a string, embedding the loop
`for _ in 0..n { padstr.push_str(pad_char) }`. -/
def strRepeat : Nat → Str → Str
  | 0, _ => []
  | n + 1, s => s ++ strRepeat n s

/-- Decimal digits of a natural number, most significant first (fuel-based). -/
def natCharsAux : Nat → Nat → List Char
  | 0, _ => []
  | fuel + 1, n =>
    if n = 0 then [] else natCharsAux fuel (n / 10) ++ [Char.ofNat (48 + n % 10)]

/-- Decimal rendering of a natural number. -/
def natChars (n : Nat) : List Char :=
  if n = 0 then ['0'] else natCharsAux (n + 1) n

/-- Decimal rendering of an integer, as Rust's `f64::to_string` renders
integral values (no decimal point, `-` sign for negatives). -/
def intChars : Int → List Char
  | .ofNat n => natChars n
  | .negSucc n => '-' :: natChars (n + 1)

/-- Two's-complement wrap into the `i8` range, embedding Rust's `as i8` cast. -/
def wrap8 (n : Int) : Int := (n + 128) % 256 - 128

/-- Absolute value followed by the `i8` wrap, embedding `i8::abs` in release
mode (where `(-128i8).abs()` wraps back to `-128`). -/
def absWrap8 (n : Int) : Int := wrap8 |n|

/-- Split a string at every occurrence of a separator character, embedding
Rust's `str::split` (so `""` splits to `[""]` and separators at the ends
produce empty fragments). -/
def splitOnCh (sep : Char) : Str → List Str
  | [] => [[]]
  | c :: rest =>
    if c = sep then [] :: splitOnCh sep rest
    else
      match splitOnCh sep rest with
      | [] => [[c]]
      | p :: ps => (c :: p) :: ps

/-! ## Errors

Embedding of `PropertyError` from `src/presentation/util.rs`. -/

/-- All errors of property construction (`PropertyError` in `util.rs`). -/
inductive PropertyError where
  | MismatchedExprCount
  | BadAlignment
  | SyntaxError (rtype property : String) (desc : Option String)
  | LuaError (desc : String)
  | MultiError (errs : List PropertyError)
deriving Repr

/-! ## Expression evaluator

Modelled from the spec: the external `meval` crate that parses and
evaluates arithmetic expressions is not code of this repository; §4.1 of
the spec gives its contract (standard arithmetic with `+ - * /`,
parentheses, unary minus, variables `w`,`h`,`t`, calls into a fixed
function library, position-indexed diagnostics).  The model below
implements that contract for the subset exercised here: decimal numbers,
the three variables, the four binary operators, unary minus, parentheses
and calls to the exactly-representable library functions
(`abs,floor,ceil,round,signum,max,min,clamp,isEqual,isGreater,isLess,mod`);
`^` and the transcendental/easing functions are omitted (no claim uses
them).  Unknown variables and functions are rejected at bind time, other
malformed input at parse time — mirroring `meval`'s two stages, which the
repository code under test distinguishes. -/

/-- Tokens of the modelled expression language. -/
inductive MTok where
  | num (q : ℚ)
  | ident (s : Str)
  | plus
  | minus
  | star
  | slash
  | lparen
  | rparen
  | comma
deriving Repr, DecidableEq

/-- Longest run of decimal digits at the front of a string. -/
def takeDigits : Str → List Char × Str
  | [] => ([], [])
  | c :: rest =>
    if c.isDigit then
      match takeDigits rest with
      | (d, r) => (c :: d, r)
    else ([], c :: rest)

/-- Longest run of identifier characters (letters, digits, underscore). -/
def takeIdentChars : Str → List Char × Str
  | [] => ([], [])
  | c :: rest =>
    if c.isAlpha ∨ c.isDigit ∨ c = '_' then
      match takeIdentChars rest with
      | (d, r) => (c :: d, r)
    else ([], c :: rest)

/-- Numeric value of a digit string. -/
def digitsToNat : List Char → Nat :=
  List.foldl (fun acc c => acc * 10 + (c.toNat - 48)) 0

/-- Rational value of an integer part and a fractional part. -/
def mkNumQ (ip fp : List Char) : ℚ :=
  if fp.isEmpty then (digitsToNat ip : ℚ)
  else (digitsToNat ip : ℚ) + (digitsToNat fp : ℚ) / 10 ^ fp.length

/-- Lexer for the modelled expression language (fuel-based). -/
def mlex : Nat → Str → Except String (List MTok)
  | 0, _ => .error "Expression Parsing error: lexer fuel exhausted"
  | _, [] => .ok []
  | fuel + 1, c :: rest =>
    if c = ' ' ∨ c = '\t' then mlex fuel rest
    else if c.isDigit then
      match takeDigits (c :: rest) with
      | (ip, r1) =>
        match r1 with
        | '.' :: r2 =>
          match takeDigits r2 with
          | (fp, r3) => (mlex fuel r3).map (fun ts => .num (mkNumQ ip fp) :: ts)
        | _ => (mlex fuel r1).map (fun ts => .num (mkNumQ ip []) :: ts)
    else if c.isAlpha then
      match takeIdentChars rest with
      | (ic, r1) => (mlex fuel r1).map (fun ts => .ident (c :: ic) :: ts)
    else if c = '+' then (mlex fuel rest).map (fun ts => .plus :: ts)
    else if c = '-' then (mlex fuel rest).map (fun ts => .minus :: ts)
    else if c = '*' then (mlex fuel rest).map (fun ts => .star :: ts)
    else if c = '/' then (mlex fuel rest).map (fun ts => .slash :: ts)
    else if c = '(' then (mlex fuel rest).map (fun ts => .lparen :: ts)
    else if c = ')' then (mlex fuel rest).map (fun ts => .rparen :: ts)
    else if c = ',' then (mlex fuel rest).map (fun ts => .comma :: ts)
    else .error "Expression Parsing error: Unexpected token"

/-- Abstract syntax of the modelled expression language. -/
inductive MExpr where
  | num (q : ℚ)
  | var (name : Str)
  | neg (a : MExpr)
  | add (a b : MExpr)
  | sub (a b : MExpr)
  | mul (a b : MExpr)
  | div (a b : MExpr)
  | call (fname : Str) (args : List MExpr)
deriving Repr

mutual

/-- Recursive-descent parsing, additive level: `term (('+'|'-') term)*`. -/
def parseE : Nat → List MTok → Except String (MExpr × List MTok)
  | 0, _ => .error "Expression Parsing error: parser fuel exhausted"
  | fuel + 1, ts =>
    match parseT fuel ts with
    | .error e => .error e
    | .ok (a, rest) => parseELoop fuel a rest

/-- Loop of the additive level. -/
def parseELoop : Nat → MExpr → List MTok → Except String (MExpr × List MTok)
  | 0, _, _ => .error "Expression Parsing error: parser fuel exhausted"
  | fuel + 1, a, ts =>
    match ts with
    | .plus :: rest =>
      match parseT fuel rest with
      | .error e => .error e
      | .ok (b, r2) => parseELoop fuel (.add a b) r2
    | .minus :: rest =>
      match parseT fuel rest with
      | .error e => .error e
      | .ok (b, r2) => parseELoop fuel (.sub a b) r2
    | _ => .ok (a, ts)

/-- Multiplicative level: `factor (('*'|'/') factor)*`. -/
def parseT : Nat → List MTok → Except String (MExpr × List MTok)
  | 0, _ => .error "Expression Parsing error: parser fuel exhausted"
  | fuel + 1, ts =>
    match parseF fuel ts with
    | .error e => .error e
    | .ok (a, rest) => parseTLoop fuel a rest

/-- Loop of the multiplicative level. -/
def parseTLoop : Nat → MExpr → List MTok → Except String (MExpr × List MTok)
  | 0, _, _ => .error "Expression Parsing error: parser fuel exhausted"
  | fuel + 1, a, ts =>
    match ts with
    | .star :: rest =>
      match parseF fuel rest with
      | .error e => .error e
      | .ok (b, r2) => parseTLoop fuel (.mul a b) r2
    | .slash :: rest =>
      match parseF fuel rest with
      | .error e => .error e
      | .ok (b, r2) => parseTLoop fuel (.div a b) r2
    | _ => .ok (a, ts)

/-- Unary level: `'-' factor | atom`. -/
def parseF : Nat → List MTok → Except String (MExpr × List MTok)
  | 0, _ => .error "Expression Parsing error: parser fuel exhausted"
  | fuel + 1, ts =>
    match ts with
    | .minus :: rest =>
      match parseF fuel rest with
      | .error e => .error e
      | .ok (a, r2) => .ok (.neg a, r2)
    | _ => parseA fuel ts

/-- Atoms: numbers, variables, calls, parenthesised expressions. -/
def parseA : Nat → List MTok → Except String (MExpr × List MTok)
  | 0, _ => .error "Expression Parsing error: parser fuel exhausted"
  | fuel + 1, ts =>
    match ts with
    | .num q :: rest => .ok (.num q, rest)
    | .ident nm :: .lparen :: rest =>
      match parseArgs fuel rest with
      | .error e => .error e
      | .ok (args, r2) => .ok (.call nm args, r2)
    | .ident nm :: rest => .ok (.var nm, rest)
    | .lparen :: rest =>
      match parseE fuel rest with
      | .error e => .error e
      | .ok (a, r2) =>
        match r2 with
        | .rparen :: r3 => .ok (a, r3)
        | _ => .error "Expression Parsing error: missing right parenthesis"
    | _ => .error "Expression Parsing error: Missing argument"

/-- Comma-separated call arguments up to the closing parenthesis. -/
def parseArgs : Nat → List MTok → Except String (List MExpr × List MTok)
  | 0, _ => .error "Expression Parsing error: parser fuel exhausted"
  | fuel + 1, ts =>
    match ts with
    | .rparen :: rest => .ok ([], rest)
    | _ =>
      match parseE fuel ts with
      | .error e => .error e
      | .ok (a, r2) =>
        match r2 with
        | .comma :: r3 =>
          match parseArgs fuel r3 with
          | .error e => .error e
          | .ok (args, r4) => .ok (a :: args, r4)
        | .rparen :: r3 => .ok ([a], r3)
        | _ => .error "Expression Parsing error: missing right parenthesis"

end

/-- Whole-string expression parse: lex, parse, require no trailing tokens. -/
def mparseExpr (s : Str) : Except String MExpr :=
  match mlex (s.length + 1) s with
  | .error e => .error e
  | .ok ts =>
    match parseE (4 * ts.length + 8) ts with
    | .error e => .error e
    | .ok (a, []) => .ok a
    | .ok (_, _ :: _) => .error "Expression Parsing error: Unexpected token"

/-- Arity acceptance of the modelled function library. -/
def knownFuncArity (f : Str) (n : Nat) : Bool :=
  if f = ['a', 'b', 's'] ∨ f = ['f', 'l', 'o', 'o', 'r'] ∨ f = ['c', 'e', 'i', 'l'] ∨
      f = ['r', 'o', 'u', 'n', 'd'] ∨ f = ['s', 'i', 'g', 'n', 'u', 'm'] then
    n = 1
  else if f = ['m', 'a', 'x'] ∨ f = ['m', 'i', 'n'] then 1 ≤ n
  else if f = ['m', 'o', 'd'] ∨ f = ['i', 's', 'E', 'q', 'u', 'a', 'l'] ∨
      f = ['i', 's', 'G', 'r', 'e', 'a', 't', 'e', 'r'] ∨ f = ['i', 's', 'L', 'e', 's', 's'] then
    n = 2
  else if f = ['c', 'l', 'a', 'm', 'p'] then n = 3
  else false

mutual

/-- Bind-stage validation: every variable must be `w`, `h` or `t` and every
call must target a known function with an accepted arity, mirroring
`meval`'s `bind3_with_context` (which test-evaluates the expression). -/
def bindCheckE : MExpr → Except String Unit
  | .num _ => .ok ()
  | .var nm =>
    if nm = ['w'] ∨ nm = ['h'] ∨ nm = ['t'] then .ok ()
    else .error "Unknown variable!"
  | .neg a => bindCheckE a
  | .add a b => match bindCheckE a with | .error e => .error e | .ok _ => bindCheckE b
  | .sub a b => match bindCheckE a with | .error e => .error e | .ok _ => bindCheckE b
  | .mul a b => match bindCheckE a with | .error e => .error e | .ok _ => bindCheckE b
  | .div a b => match bindCheckE a with | .error e => .error e | .ok _ => bindCheckE b
  | .call f args =>
    if knownFuncArity f args.length then bindCheckL args
    else .error "Unknown function or invalid number of arguments!"

/-- Bind-stage validation of an argument list. -/
def bindCheckL : List MExpr → Except String Unit
  | [] => .ok ()
  | a :: rest => match bindCheckE a with | .error e => .error e | .ok _ => bindCheckL rest

end

/-- Truncation of a rational towards zero (`f64::trunc`). -/
def ratTrunc (q : ℚ) : ℚ := if 0 ≤ q then (⌊q⌋ : ℤ) else (⌈q⌉ : ℤ)

/-- Rounding of a rational half away from zero (`f64::round`). -/
def ratRound (q : ℚ) : ℚ :=
  if 0 ≤ q then ((⌊q + 1 / 2⌋ : ℤ) : ℚ) else ((⌈q - 1 / 2⌉ : ℤ) : ℚ)

/-- Semantics of the modelled function library on rationals. -/
def applyFunc (f : Str) (vs : List ℚ) : ℚ :=
  if f = ['a', 'b', 's'] then |vs.getD 0 0|
  else if f = ['f', 'l', 'o', 'o', 'r'] then ((⌊vs.getD 0 0⌋ : ℤ) : ℚ)
  else if f = ['c', 'e', 'i', 'l'] then ((⌈vs.getD 0 0⌉ : ℤ) : ℚ)
  else if f = ['r', 'o', 'u', 'n', 'd'] then ratRound (vs.getD 0 0)
  else if f = ['s', 'i', 'g', 'n', 'u', 'm'] then (if vs.getD 0 0 < 0 then -1 else 1)
  else if f = ['m', 'a', 'x'] then vs.foldl max (vs.getD 0 0)
  else if f = ['m', 'i', 'n'] then vs.foldl min (vs.getD 0 0)
  else if f = ['m', 'o', 'd'] then
    vs.getD 0 0 - vs.getD 1 0 * ratTrunc (vs.getD 0 0 / vs.getD 1 0)
  else if f = ['i', 's', 'E', 'q', 'u', 'a', 'l'] then
    (if vs.getD 0 0 = vs.getD 1 0 then 1 else 0)
  else if f = ['i', 's', 'G', 'r', 'e', 'a', 't', 'e', 'r'] then
    (if vs.getD 1 0 < vs.getD 0 0 then 1 else 0)
  else if f = ['i', 's', 'L', 'e', 's', 's'] then
    (if vs.getD 0 0 < vs.getD 1 0 then 1 else 0)
  else if f = ['c', 'l', 'a', 'm', 'p'] then
    min (max (vs.getD 1 0) (vs.getD 0 0)) (vs.getD 2 0)
  else 0

mutual

/-- Evaluation of a bound expression at `(w, h, t)`. -/
def mevalE : MExpr → ℚ → ℚ → ℚ → ℚ
  | .num q, _, _, _ => q
  | .var nm, w, h, t =>
    if nm = ['w'] then w else if nm = ['h'] then h else if nm = ['t'] then t else 0
  | .neg a, w, h, t => -mevalE a w h t
  | .add a b, w, h, t => mevalE a w h t + mevalE b w h t
  | .sub a b, w, h, t => mevalE a w h t - mevalE b w h t
  | .mul a b, w, h, t => mevalE a w h t * mevalE b w h t
  | .div a b, w, h, t => mevalE a w h t / mevalE b w h t
  | .call f args, w, h, t => applyFunc f (mevalL args w h t)

/-- Evaluation of an argument list. -/
def mevalL : List MExpr → ℚ → ℚ → ℚ → List ℚ
  | [], _, _, _ => []
  | a :: rest, w, h, t => mevalE a w h t :: mevalL rest w h t

end

/-! ## Resolution-dependent expressions

Embedding of `ResExprType`, `res_dependent_expr`, `lua_expr` and
`parse_expression_list` from `src/presentation/util.rs`.  The `mlua`
runtime is an external collaborator, embedded as an oracle
`LuaOracle` mapping a chunk source to either a compiled-function handle or
a compilation diagnostic. -/

/-- Which window dimension the `%` shorthand refers to (`ResExprType`). -/
inductive ResExprType where
  | WidthBased
  | HeightBased
deriving Repr, DecidableEq

/-- The variable character substituted for `%` (`ResExprType::str`). -/
def ResExprType.str : ResExprType → Str
  | .WidthBased => ['w']
  | .HeightBased => ['h']

/-- Textual substitution of every `%` by `/100*w` or `/100*h`, embedding
`exprstr.replace("%", &("/100*".to_owned()+expr_type.str()))`. -/
def replacePercent (ty : ResExprType) : Str → Str
  | [] => []
  | c :: rest =>
    if c = '%' then '/' :: '1' :: '0' :: '0' :: '*' :: (ty.str ++ replacePercent ty rest)
    else c :: replacePercent ty rest

/-- Handle of a compiled Lua function (the function itself lives in the
external `mlua` runtime). -/
abbrev LuaFn := Nat

/-- The external Lua compiler: chunk source to compiled function or
compilation diagnostic (`LUA_INSTANCE.load(..).into_function()`). -/
abbrev LuaOracle := Str → Except String LuaFn

/-- A parsed resolution-dependent expression (`ResolutionDependentExpr`).
`MathExpr` stores the syntax tree standing for the bound closure, the
post-substitution source string and the expression type, exactly the data
the source struct keeps; `LuaExpr` stores the compiled-function handle and
the original source string. -/
inductive RDExpr where
  | MathExpr (ast : MExpr) (base_string : Str) (base_expr_type : ResExprType)
  | LuaExpr (func : LuaFn) (src : Str)
deriving Repr

/-- The stored source string of an expression (`base_string` field). -/
def rdBaseString : RDExpr → Str
  | .MathExpr _ s _ => s
  | .LuaExpr _ s => s

/-- Embedding of `res_dependent_expr`: substitute `%`, try the math parse
(parse errors return immediately), then the bind; on a bind failure fall
back to compiling the ORIGINAL string as Lua; report a `MultiError` of the
bind diagnostic and the Lua diagnostic when both fail. -/
def resDependentExpr (e : Str) (ty : ResExprType) (lua : LuaOracle) :
    Except PropertyError RDExpr :=
  let mstring := replacePercent ty e
  match mparseExpr mstring with
  | .error d => .error (.SyntaxError "" "" (some d))
  | .ok ast =>
    match bindCheckE ast with
    | .ok _ => .ok (.MathExpr ast mstring ty)
    | .error bd =>
      match lua e with
      | .ok f => .ok (.LuaExpr f e)
      | .error le =>
        .error (.MultiError [.SyntaxError "" "" (some bd), .LuaError le])

/-- Context of the i-th semicolon-separated component (`match i%2`). -/
def ctxOf (i : Nat) : ResExprType :=
  if i % 2 = 0 then .WidthBased else .HeightBased

/-- Indexed worker of `parse_expression_list` (fail-fast on the first
component error). -/
def parseExprListAux (lua : LuaOracle) : Nat → List Str → Except PropertyError (List RDExpr)
  | _, [] => .ok []
  | i, p :: ps =>
    match resDependentExpr p (ctxOf i) lua with
    | .error e => .error e
    | .ok r => (parseExprListAux lua (i + 1) ps).map (fun rs => r :: rs)

/-- Embedding of `parse_expression_list`: split on `;`, parse each part in
its alternating width/height context. -/
def parseExpressionList (s : Str) (lua : LuaOracle) : Except PropertyError (List RDExpr) :=
  parseExprListAux lua 0 (splitOnCh ';' s)

/-- Embedding of `TryFrom<Vec<ResolutionDependentExpr>> for ExprVector<N>`:
the conversion fails with `MismatchedExprCount` unless the list has exactly
`n` entries. -/
def exprVectorTryFrom (n : Nat) (v : List RDExpr) : Except PropertyError (List RDExpr) :=
  if v.length = n then .ok v else .error .MismatchedExprCount

/-- Construction of an `ExprVector<N>` from a `;`-delimited string, the
composition used by `BaseProperties::new`
(`parse_expression_list(..)?.try_into()?`). -/
def mkExprVector (n : Nat) (s : Str) (lua : LuaOracle) : Except PropertyError (List RDExpr) :=
  match parseExpressionList s lua with
  | .error e => .error e
  | .ok v => exprVectorTryFrom n v

/-- Successful-construction test for `Except` results. -/
def isOkE {α : Type} : Except PropertyError α → Bool
  | .ok _ => true
  | .error _ => false

/-- Test whether a result is a lone `SyntaxError` (the no-Lua-fallback
error shape of a math parse failure). -/
def isSyntaxErrorOnly {α : Type} : Except PropertyError α → Bool
  | .error (.SyntaxError _ _ _) => true
  | _ => false

/-! ## Alignment and shape placement

Embedding of `Alignment` (`util.rs`) and of the geometry computed by
`ColoredRect::render`, `RoundedRect::render` and `Image::render`
(`renderable.rs`).  The shapes' property evaluation happens upstream; the
placement rule operates on the already-evaluated position and size, which
are taken as arguments. -/

/-- The nine anchor alignments (`Alignment` in `util.rs`). -/
inductive Alignment' where
  | TopLeft
  | TopRight
  | TopCentered
  | MidLeft
  | MidRight
  | MidCentered
  | BottomLeft
  | BottomRight
  | BottomCentered
deriving Repr, DecidableEq

/-- The multiplier pair of an alignment (`impl Into<(f64,f64)> for Alignment`). -/
def Alignment'.multipliers : Alignment' → ℚ × ℚ
  | .TopLeft => (0, 0)
  | .TopRight => (1, 0)
  | .TopCentered => (1 / 2, 0)
  | .MidLeft => (0, 1 / 2)
  | .MidRight => (1, 1 / 2)
  | .MidCentered => (1 / 2, 1 / 2)
  | .BottomLeft => (0, 1)
  | .BottomRight => (1, 1)
  | .BottomCentered => (1 / 2, 1)

/-- Rectangle drawn by `ColoredRect::render`:
`[pos.0-size.0*a.0, pos.1-size.1*a.1, size.0, size.1]`. -/
def coloredRectRect (pos size : ℚ × ℚ) (a : Alignment') : ℚ × ℚ × ℚ × ℚ :=
  (pos.1 - size.1 * a.multipliers.1, pos.2 - size.2 * a.multipliers.2, size.1, size.2)

/-- Aligned corner position computed by `RoundedRect::render`
(`pos_eval = (pos_eval.0 - size_eval.0*alignment.0, pos_eval.1 - size_eval.1*alignment.1)`). -/
def roundedRectOrigin (pos size : ℚ × ℚ) (a : Alignment') : ℚ × ℚ :=
  (pos.1 - size.1 * a.multipliers.1, pos.2 - size.2 * a.multipliers.2)

/-- Rectangle drawn by `Image::render`. -/
def imageRect (pos size : ℚ × ℚ) (a : Alignment') : ℚ × ℚ × ℚ × ℚ :=
  (pos.1 - size.1 * a.multipliers.1, pos.2 - size.2 * a.multipliers.2, size.1, size.2)

/-! ## Placeholder number padding

Embedding of `Text::pad_num` (`renderable.rs`).  The `f64` value reaching
`pad_num` is embedded as an integer (`num.to_string()` on an integral
`f64` prints without a decimal point); the `i8` arithmetic of the length
guard is kept explicit via `wrap8`. -/

/-- Embedding of `Text::pad_num`. -/
def padNum (num : Int) (padAmount : Int) (padChar : Str) (padDir : Str) : Str :=
  let numstr := intChars num
  let padstr :=
    if 0 < padAmount - wrap8 numstr.length then
      strRepeat (padAmount.toNat - numstr.length) padChar
    else []
  if padDir = ['<'] then padstr ++ numstr
  else if padDir = ['>'] then numstr ++ padstr
  else padstr

/-- The padding direction selected at render time, embedding
`if *pad_amount<0 { "<" } else { ">" }` from both `Text::render` arms. -/
def padDirOfAmount (padAmount : Int) : Str :=
  if padAmount < 0 then ['<'] else ['>']

/-! ## Markup tokenizer

Embedding of `Text::parse` (`renderable.rs`): five regex passes
(size, color, font, bold, italic), then placeholder extraction, tab
splitting, space and hyphen splitting, and removal of empty runs.  The
regexes are `regex`-crate patterns with leftmost, lazy-content matches;
they are embedded as bespoke matchers below, one per pattern, each
following the pattern's backtracking behaviour. -/

/-- Style data carried by a text run: the `bold`, `italic`, `color`, `size`
and `font` fields of `TextPart::Text`.  The color and size expressions are
represented by their stored source strings (`base_string`), the font by its
registry name. -/
structure TStyle where
  bold : Bool
  italic : Bool
  color : List Str
  size : Str
  font : Str
deriving Repr, DecidableEq

/-- Embedding of the `TextPart` enum. The `pad_amount` is the `i8` stored by
the placeholder extraction; the captured pad direction is NOT a field, as in
the source. -/
inductive TextPart where
  | text (txt : Str) (style : TStyle)
  | tab
  | space (size : Str) (font : Str)
  | newline
  | placeholder (index : Str) (padChar : Str) (padAmount : Int) (style : TStyle)
deriving Repr, DecidableEq

/-- Result of finding a pattern inside a run: the text before the match, the
`content` capture, the pattern-specific captures and the text after the
match. -/
structure MatchSplit (α : Type) where
  before : Str
  content : Str
  caps : α
  rest : Str

/-- Lazy tail of the bold pattern `\*\*(?<content>.+?)\*\*`: one or more
non-newline content characters, as few as possible, then `**`. -/
def boldTail : Str → Option (Str × Str)
  | c :: '*' :: '*' :: rest => if c = '\n' then none else some ([c], rest)
  | c :: rest =>
    if c = '\n' then none
    else (boldTail rest).map (fun pr => (c :: pr.1, pr.2))
  | [] => none

/-- Bold pattern match at the start of the string. -/
def boldAt : Str → Option (Str × Unit × Str)
  | '*' :: '*' :: rest => (boldTail rest).map (fun pr => (pr.1, (), pr.2))
  | _ => none

/-- Lazy tail of the italic pattern `\*(?<content>.+?)\*`. -/
def italTail : Str → Option (Str × Str)
  | c :: '*' :: rest => if c = '\n' then none else some ([c], rest)
  | c :: rest =>
    if c = '\n' then none
    else (italTail rest).map (fun pr => (c :: pr.1, pr.2))
  | [] => none

/-- Italic pattern match at the start of the string. -/
def italAt : Str → Option (Str × Unit × Str)
  | '*' :: rest => (italTail rest).map (fun pr => (pr.1, (), pr.2))
  | _ => none

/-- Content tail of the font pattern: `(?<content>.+?)__`, lazy. -/
def fontTail2 : Str → Option (Str × Str)
  | c :: '_' :: '_' :: rest => if c = '\n' then none else some ([c], rest)
  | c :: rest =>
    if c = '\n' then none
    else (fontTail2 rest).map (fun pr => (c :: pr.1, pr.2))
  | [] => none

/-- Font-name tail of `_(?<font>.+?)_(?<content>.+?)__`: lazy font name,
extending past a candidate `_` separator whenever the content part fails
after it. Returns `(font, content, rest)`. -/
def fontTail1 : Str → Option (Str × Str × Str)
  | c :: rest =>
    if c = '\n' then none
    else
      match rest with
      | '_' :: r2 =>
        match fontTail2 r2 with
        | some (content, rem) => some ([c], content, rem)
        | none => (fontTail1 rest).map (fun t => (c :: t.1, t.2.1, t.2.2))
      | _ => (fontTail1 rest).map (fun t => (c :: t.1, t.2.1, t.2.2))
  | [] => none

/-- Font pattern match at the start of the string; captures the font name. -/
def fontAt : Str → Option (Str × Str × Str)
  | '_' :: rest => (fontTail1 rest).map (fun t => (t.2.1, t.1, t.2.2))
  | _ => none

/-- Content tail of the size pattern: `(?<content>.+?)~~`, lazy. -/
def sizeTail2 : Str → Option (Str × Str)
  | c :: '~' :: '~' :: rest => if c = '\n' then none else some ([c], rest)
  | c :: rest =>
    if c = '\n' then none
    else (sizeTail2 rest).map (fun pr => (c :: pr.1, pr.2))
  | [] => none

/-- Size-capture tail of `~(?<size>[^~]+?)~(?<content>.+?)~~`: the size
capture may not contain `~`, so it cannot extend past its terminating `~`.
Returns `(size, content, rest)`. -/
def sizeTail1 : Str → Option (Str × Str × Str)
  | c :: rest =>
    if c = '~' then none
    else
      match rest with
      | '~' :: r2 =>
        match sizeTail2 r2 with
        | some (content, rem) => some ([c], content, rem)
        | none => none
      | _ => (sizeTail1 rest).map (fun t => (c :: t.1, t.2.1, t.2.2))
  | [] => none

/-- Size pattern match at the start of the string; captures the size
expression. -/
def sizeAt : Str → Option (Str × Str × Str)
  | '~' :: rest => (sizeTail1 rest).map (fun t => (t.2.1, t.1, t.2.2))
  | _ => none

/-- Greedy run of characters in the class ``[^;`]``. -/
def takeClassRun : Str → Str × Str
  | [] => ([], [])
  | c :: rest =>
    if c = ';' ∨ c = '`' then ([], c :: rest)
    else
      match takeClassRun rest with
      | (t, r) => (c :: t, r)

/-- Greedy run of whitespace characters (the regex class `\s`). -/
def takeWsRun : Str → Str × Str
  | [] => ([], [])
  | c :: rest =>
    if c.isWhitespace then
      match takeWsRun rest with
      | (t, r) => (c :: t, r)
    else ([], c :: rest)

/-- A color-component field ``\s*([^;`]+)`` with the regex backtracking
behaviour: the greedy whitespace run yields back its last character when
the component class would otherwise be empty. -/
def wsField (s : Str) : Option (Str × Str) :=
  match takeWsRun s with
  | (w, r1) =>
    match takeClassRun r1 with
    | (t, r2) =>
      if t.isEmpty then
        match w.getLast? with
        | some lastc => some ([lastc], r2)
        | none => none
      else some (t, r2)

/-- Lazy content tail of the color pattern: ``(?<content>.+?)` ` ``
(one or more non-newline characters then two backticks). -/
def colorContent : Str → Option (Str × Str)
  | c :: '`' :: '`' :: rest => if c = '\n' then none else some ([c], rest)
  | c :: rest =>
    if c = '\n' then none
    else (colorContent rest).map (fun pr => (c :: pr.1, pr.2))
  | [] => none

/-- The closing part of the color pattern: a backtick, then the lazy
content, then the two closing backticks. -/
def colorFinish : Str → Option (Str × Str)
  | '`' :: s => colorContent s
  | _ => none

/-- The optional alpha group ``(;\s*(?<a>[^;`]+))?`` (greedy: tried first)
followed by the closing part. Returns `(alpha?, content, rest)`. -/
def colorOptA (s : Str) : Option (Option Str × Str × Str) :=
  (match s with
    | ';' :: s6 =>
      match wsField s6 with
      | some (a, s7) => (colorFinish s7).map (fun pr => (some a, pr.1, pr.2))
      | none => none
    | _ => none) <|>
  (colorFinish s).map (fun pr => ((none : Option Str), pr.1, pr.2))

/-- Color pattern match at the start of the string
(`` `(?<r>[^;`]+);\s*(?<g>[^;`]+);\s*(?<b>[^;`]+)(;\s*(?<a>[^;`]+))?`(?<content>.+?)`` ``);
captures `(r, g, b, alpha?)`. -/
def colorAt : Str → Option (Str × (Str × Str × Str × Option Str) × Str)
  | '`' :: s0 =>
    (match takeClassRun s0 with
      | (r, s1) =>
        if r.isEmpty then none
        else
          match s1 with
          | ';' :: s2 =>
            match wsField s2 with
            | none => none
            | some (g, s3) =>
              match s3 with
              | ';' :: s4 =>
                match wsField s4 with
                | none => none
                | some (b, s5) =>
                  (colorOptA s5).map (fun t => (t.2.1, (r, g, b, t.1), t.2.2))
              | _ => none
          | _ => none)
  | _ => none

/-- Leftmost match of a pattern: try the start-anchored matcher at every
position from the left, as `captures_iter` does. -/
def findAt {α : Type} (am : Str → Option (Str × α × Str)) : Str → Option (MatchSplit α)
  | [] => none
  | c :: rest =>
    match am (c :: rest) with
    | some (content, caps, rem) => some ⟨[], content, caps, rem⟩
    | none =>
      (findAt am rest).map (fun ms => { ms with before := c :: ms.before })

/-- Splitting of one `Text` run along all matches of one pattern: for every
match push the unmatched head (original style) and the content run with the
mutated style, then continue after the match; the style mutation can fail.
Mirrors the `captures_iter` loop body of `Text::parse`. -/
def splitRunAux {α : Type} (am : Str → Option (Str × α × Str))
    (apply : TStyle → α → Except PropertyError TStyle) (st : TStyle) :
    Nat → Str → Except PropertyError (List TextPart)
  | 0, txt => .ok [.text txt st]
  | fuel + 1, txt =>
    match findAt am txt with
    | none => .ok [.text txt st]
    | some ms =>
      match apply st ms.caps with
      | .error e => .error e
      | .ok st2 =>
        (splitRunAux am apply st fuel ms.rest).map
          (fun tail => .text ms.before st :: .text ms.content st2 :: tail)

/-- One full regex pass over the token list: `Text` runs are re-split, all
other tokens pass through unchanged. -/
def passParts {α : Type} (am : Str → Option (Str × α × Str))
    (apply : TStyle → α → Except PropertyError TStyle) :
    List TextPart → Except PropertyError (List TextPart)
  | [] => .ok []
  | .text txt st :: rest =>
    match splitRunAux am apply st (txt.length + 1) txt with
    | .error e => .error e
    | .ok ps => (passParts am apply rest).map (fun tail => ps ++ tail)
  | p :: rest => (passParts am apply rest).map (fun tail => p :: tail)

/-- Style mutation of the size pass (`set_size`): the captured expression is
re-parsed height-based; parse failures propagate. -/
def applySize (lua : LuaOracle) (st : TStyle) (cap : Str) : Except PropertyError TStyle :=
  match resDependentExpr cap .HeightBased lua with
  | .error e => .error e
  | .ok r => .ok { st with size := rdBaseString r }

/-- Style mutation of the color pass (`set_color`): the missing alpha
defaults to the run's current stored alpha string
(`color.list[3].base_string`); the four components are re-parsed as an
`ExprVector<4>`. -/
def applyColor (lua : LuaOracle) (st : TStyle) (caps : Str × Str × Str × Option Str) :
    Except PropertyError TStyle :=
  let alpha := st.color.getD 3 []
  let a := caps.2.2.2.getD alpha
  let joined := caps.1 ++ [';'] ++ caps.2.1 ++ [';'] ++ caps.2.2.1 ++ [';'] ++ a
  match mkExprVector 4 joined lua with
  | .error e => .error e
  | .ok v => .ok { st with color := v.map rdBaseString }

/-- Style mutation of the font pass (`set_font` after the registry lookup);
an unknown font name is an error. -/
def applyFont (fontList : List Str) (st : TStyle) (cap : Str) : Except PropertyError TStyle :=
  if cap ∈ fontList then .ok { st with font := cap }
  else .error (.SyntaxError "Text" "text" (some "Invalid font name in font redefinition!"))

/-- Style mutation of the bold pass (`set_bold(true)`). -/
def applyBold (st : TStyle) : Unit → Except PropertyError TStyle :=
  fun _ => .ok { st with bold := true }

/-- Style mutation of the italic pass (`set_italic(true)`). -/
def applyItalic (st : TStyle) : Unit → Except PropertyError TStyle :=
  fun _ => .ok { st with italic := true }

/-- Greedy name part of the placeholder pattern: `(?<name>[^}]*)` followed
by the two closing braces. -/
def phName (s : Str) : Option (Str × Str) :=
  match s.span (fun c => ¬ c = '\x7d') with
  | (nm, r) =>
    match r with
    | '\x7d' :: '\x7d' :: rest => some (nm, rest)
    | _ => none

/-- Placeholder pattern match at the start of the string
(`\{((?<padchar>[^:])(?<paddir>[<>])(?<padamount>\d+))?\{(?<name>[^}]*)\}\}`);
captures the optional `(padchar, paddir, padamount)` triple and the name.
The greedy optional group is tried first, as the regex engine does. -/
def phAt : Str → Option (Str × (Option (Char × Char × Nat) × Str) × Str)
  | '\x7b' :: rest =>
    (match rest with
      | c1 :: c2 :: r2 =>
        if c1 = ':' then none
        else if c2 = '<' ∨ c2 = '>' then
          match takeDigits r2 with
          | (ds, r3) =>
            if ds.isEmpty then none
            else
              match r3 with
              | '\x7b' :: r4 =>
                (phName r4).map (fun pr => (pr.1, (some (c1, c2, digitsToNat ds), pr.1), pr.2))
              | _ => none
        else none
      | _ => none) <|>
    (match rest with
      | '\x7b' :: r2 => (phName r2).map (fun pr => (pr.1, ((none : Option (Char × Char × Nat)), pr.1), pr.2))
      | _ => none)
  | _ => none

/-- The `pad_amount` value stored from a placeholder match: the digit
capture parses as an `i32` (failing beyond `i32::MAX` with the
`Invalid placeholder padding amount!` error) and is then cast `as i8`. A
missing optional group stores 0. -/
def padAmountOf : Option (Char × Char × Nat) → Except PropertyError Int
  | none => .ok 0
  | some (_, _, n) =>
    if n ≤ 2147483647 then .ok (wrap8 n)
    else .error (.SyntaxError "Text" "text" (some "Invalid placeholder padding amount!"))

/-- The `pad_char` stored from a placeholder match; a missing optional
group stores `" "`. -/
def padCharOf : Option (Char × Char × Nat) → Str
  | none => [' ']
  | some (pc, _, _) => [pc]

/-- Placeholder extraction over one `Text` run: repeatedly take the first
placeholder match, pushing the text before it (always) and the placeholder
token; the final leftover is pushed only when non-empty.  The captured pad
DIRECTION is dropped here, exactly as in the source, which reads the
`paddir` capture into a local variable and never stores it. -/
def phSplitRun (st : TStyle) : Nat → Str → Except PropertyError (List TextPart)
  | 0, txt => .ok (if txt.length > 0 then [.text txt st] else [])
  | fuel + 1, txt =>
    match findAt phAt txt with
    | none => .ok (if txt.length > 0 then [.text txt st] else [])
    | some ms =>
      match padAmountOf ms.caps.1 with
      | .error e => .error e
      | .ok pa =>
        (phSplitRun st fuel ms.rest).map
          (fun tail => .text ms.before st ::
            .placeholder ms.caps.2 (padCharOf ms.caps.1) pa st :: tail)

/-- The placeholder pass over the token list. -/
def phPass : List TextPart → Except PropertyError (List TextPart)
  | [] => .ok []
  | .text txt st :: rest =>
    match phSplitRun st (txt.length + 1) txt with
    | .error e => .error e
    | .ok ps => (phPass rest).map (fun tail => ps ++ tail)
  | p :: rest => (phPass rest).map (fun tail => p :: tail)

/-- Tab chunking of one run, embedding the `while` loop of the tab stage:
while the last fragment contains a tab AND has length > 1, split it at the
first tab into the head, the EMPTY slice `txt[i..i]` and the tail.  (A tab
inside a longer fragment is thus dropped; only a fragment that is exactly
`"\t"` survives to become a `Tab` token.) -/
def tabChunks : Nat → Str → List Str
  | 0, txt => [txt]
  | fuel + 1, txt =>
    let pre := txt.takeWhile (fun c => ¬ c = '\t')
    if pre.length < txt.length ∧ txt.length > 1 then
      pre :: [] :: tabChunks fuel (txt.drop (pre.length + 1))
    else [txt]

/-- The tab pass over the token list. -/
def tabPass : List TextPart → List TextPart
  | [] => []
  | .text txt st :: rest =>
    ((tabChunks (txt.length + 1) txt).map
      (fun c => if c = ['\t'] then TextPart.tab else TextPart.text c st)) ++ tabPass rest
  | p :: rest => p :: tabPass rest

/-- Word-wrap splitting of one run at one separator character: the
fragments of `text.split(c)` interleaved with `Space` tokens carrying the
run's size and font.  The source uses this for `' '` AND for `'-'` (a
hyphen also becomes a `Space` token). -/
def sepInterleave (st : TStyle) : List Str → List TextPart
  | [] => []
  | [p] => [.text p st]
  | p :: ps => .text p st :: .space st.size st.font :: sepInterleave st ps

/-- The word-wrap splitting pass for one separator character. -/
def sepPass (sep : Char) : List TextPart → List TextPart
  | [] => []
  | .text txt st :: rest => sepInterleave st (splitOnCh sep txt) ++ sepPass sep rest
  | p :: rest => p :: sepPass sep rest

/-- Zero-length `Text` runs are removed at the end of `Text::parse`. -/
def keepPart : TextPart → Bool
  | .text txt _ => txt.length > 0
  | _ => true

/-- Embedding of `Text::parse`: the five regex passes in their fixed order
(size, color, font, bold, italic), then placeholder extraction, tab
splitting, space and hyphen splitting, and removal of empty runs.  The
initial run gets the inherited style; the base font must be in the
registry (the source unwraps the lookup). -/
def textParse (lua : LuaOracle) (fontList : List Str) (string : Str) (baseSize : Str)
    (baseFont : Str) (bold italic : Bool) (color : List Str) :
    Except PropertyError (List TextPart) :=
  if baseFont ∈ fontList then
    let st0 : TStyle := ⟨bold, italic, color, baseSize, baseFont⟩
    match passParts sizeAt (applySize lua) [.text string st0] with
    | .error e => .error e
    | .ok v1 =>
      match passParts colorAt (applyColor lua) v1 with
      | .error e => .error e
      | .ok v2 =>
        match passParts fontAt (applyFont fontList) v2 with
        | .error e => .error e
        | .ok v3 =>
          match passParts boldAt applyBold v3 with
          | .error e => .error e
          | .ok v4 =>
            match passParts italAt applyItalic v4 with
            | .error e => .error e
            | .ok v5 =>
              match phPass v5 with
              | .error e => .error e
              | .ok v6 =>
                .ok (((sepPass '-' (sepPass ' ' (tabPass v6))).filter keepPart))
  else .error (.SyntaxError "Text" "font" (some "base font missing from the registry"))

/-- Embedding of the tokenizing loop of `Text::new`: each line is parsed
with the inherited style (`bold=false`, `italic=false`, size from
`base.size.list[1]`, color from `base.color`) and a `NewLine` token is
appended after every line. -/
def textNewParts (lua : LuaOracle) (fontList : List Str) (lines : List Str)
    (baseSize : Str) (baseFont : Str) (color : List Str) :
    Except PropertyError (List TextPart) :=
  match lines with
  | [] => .ok []
  | l :: rest =>
    match textParse lua fontList l baseSize baseFont false false color with
    | .error e => .error e
    | .ok ps =>
      match textNewParts lua fontList rest baseSize baseFont color with
      | .error e => .error e
      | .ok tail => .ok (ps ++ [.newline] ++ tail)

/-- The visible text restored from a token list: run contents concatenated
with spaces put back for `Space` tokens. -/
def restoreText : List TextPart → Str
  | [] => []
  | .text txt _ :: rest => txt ++ restoreText rest
  | .space _ _ :: rest => ' ' :: restoreText rest
  | _ :: rest => restoreText rest

/-! ## Text layout engine

Embedding of `Text::render` (`renderable.rs`): a measurement pass over the
token list followed by a draw pass.  External inputs of the passes are
embedded as oracles evaluated at the (fixed) frame under consideration:
* `FontOracle` — the glyph metrics service, `(font name, bold, text, size)
  ↦ advance width` (the `.size(text, size).0` calls);
* `sizeEval : Str → ℚ` — evaluation of a stored size expression at the
  frame's `(w, h, t)` (expressions are pure, so both passes see the same
  value);
* `ph : Str → Option Int` — the per-object placeholder map composed with
  `TextPlaceholderExpr::call` at this frame (`none` = no entry; the claims
  use integral values, which `f64::to_string` prints without a decimal
  point).
Both passes are instrumented: each step also reports whether the token
forced a line wrap, and the draw steps report the glyph runs drawn. -/

/-- The glyph metrics service: font name, bold flag, text, font size to
advance width. -/
abbrev FontOracle := Str → Bool → Str → ℚ → ℚ

/-- The italic slant-advance correction factor (`ITALIC_ADVANCE_FAC`). -/
def italicAdvanceFac : ℚ := 1 / 10

/-- Ceiling on rationals, embedding `f64::ceil`. -/
def ratCeil (q : ℚ) : ℚ := ((⌈q⌉ : ℤ) : ℚ)

/-- State of the measurement pass: accumulated height, per-line widths and
heights, current line width and current line max height. -/
structure MState where
  height : ℚ
  line_widths : List ℚ
  line_heights : List ℚ
  curr_width : ℚ
  curr_max_height : ℚ
deriving Repr

/-- Initial measurement state (`height=0`, empty lines, `curr_width=0`,
`curr_max_height=default_size`). -/
def mInit (ds : ℚ) : MState := ⟨0, [], [], 0, ds⟩

/-- One step of the measurement pass; the boolean reports a forced line
wrap (the flush inside the `Text`/`Placeholder` arms). -/
def measureStep (fo : FontOracle) (sizeEval : Str → ℚ) (ph : Str → Option Int)
    (maxw ds : ℚ) (s : MState) : TextPart → MState × Bool
  | .tab =>
    let size_incs := ds * 12
    if ratCeil (s.curr_width / size_incs) * size_incs ≤ maxw then
      ({ s with curr_width := ratCeil (s.curr_width / size_incs) * size_incs }, false)
    else (s, false)
  | .newline =>
    (⟨s.height + s.curr_max_height, s.line_widths ++ [s.curr_width],
      s.line_heights ++ [s.curr_max_height], 0, ds⟩, false)
  | .space sz fnt =>
    let ps := sizeEval sz
    let cmh := if ps > s.curr_max_height then ps else s.curr_max_height
    let w := fo fnt false [' '] ps
    if s.curr_width + w ≤ maxw then
      (⟨s.height, s.line_widths, s.line_heights, s.curr_width + w, cmh⟩, false)
    else (⟨s.height, s.line_widths, s.line_heights, s.curr_width, cmh⟩, false)
  | .text txt st =>
    let ps := sizeEval st.size
    let cmh := if ps > s.curr_max_height then ps else s.curr_max_height
    let pw := fo st.font st.bold txt ps + (if st.italic then ps * italicAdvanceFac else 0)
    if s.curr_width + pw > maxw then
      (⟨s.height + cmh, s.line_widths ++ [s.curr_width], s.line_heights ++ [cmh], pw, ds⟩, true)
    else (⟨s.height, s.line_widths, s.line_heights, s.curr_width + pw, cmh⟩, false)
  | .placeholder idx padc pada st =>
    match ph idx with
    | none => (s, false)
    | some v =>
      let ps := sizeEval st.size
      let cmh := if s.curr_max_height < ps then ps else s.curr_max_height
      let txt := padNum v (absWrap8 pada) padc (padDirOfAmount pada)
      let pw := fo st.font st.bold txt ps + (if st.italic then ps * italicAdvanceFac else 0)
      if s.curr_width + pw > maxw then
        (⟨s.height + cmh, s.line_widths ++ [s.curr_width], s.line_heights ++ [cmh], pw, ds⟩, true)
      else (⟨s.height, s.line_widths, s.line_heights, s.curr_width + pw, cmh⟩, false)

/-- The measurement pass, state only. -/
def measureFold (fo : FontOracle) (sizeEval : Str → ℚ) (ph : Str → Option Int)
    (maxw ds : ℚ) (s : MState) : List TextPart → MState
  | [] => s
  | p :: ps => measureFold fo sizeEval ph maxw ds (measureStep fo sizeEval ph maxw ds s p).1 ps

/-- The measurement pass, per-token wrap flags. -/
def measureTrace (fo : FontOracle) (sizeEval : Str → ℚ) (ph : Str → Option Int)
    (maxw ds : ℚ) (s : MState) : List TextPart → List Bool
  | [] => []
  | p :: ps =>
    (measureStep fo sizeEval ph maxw ds s p).2 ::
      measureTrace fo sizeEval ph maxw ds (measureStep fo sizeEval ph maxw ds s p).1 ps

/-- State of the draw pass: current pen position and current line index. -/
structure DState where
  x : ℚ
  y : ℚ
  line : Nat
deriving Repr

/-- A glyph run emitted by the draw pass (`font_instance.draw(..)`):
text, pen position, baseline-translated y, font size, style, font. -/
structure DrawEvent where
  txt : Str
  x : ℚ
  y : ℚ
  fontSize : ℚ
  bold : Bool
  italic : Bool
  font : Str
deriving Repr

/-- The x position at which a line starts:
`starting_pos.0 + (max_width - line_widths[line])*text_align`. -/
def lineStartX (sp : ℚ × ℚ) (maxw ta : ℚ) (lw : List ℚ) (line : Nat) : ℚ :=
  sp.1 + (maxw - lw.getD line 0) * ta

/-- One step of the draw pass; reports the post-state, a wrap flag, and the
glyph runs drawn.  Note the asymmetries kept from the source: the `Text`
arm advances the pen by the italic correction BEFORE the wrap check and
loses it when wrapping, a `Space` always advances (no fit check), the
`Tab` arm rounds the ABSOLUTE pen position, and the wrap/newline reset
reads `line_widths`/`line_heights` at the pre-increment line index. -/
def drawStep (fo : FontOracle) (sizeEval : Str → ℚ) (ph : Str → Option Int)
    (maxw ds : ℚ) (sp : ℚ × ℚ) (ta : ℚ) (lw lh : List ℚ) (s : DState) :
    TextPart → DState × Bool × List DrawEvent
  | .tab =>
    let size_incs := ds * 12
    if ratCeil (s.x / size_incs) * size_incs - sp.1 ≤ maxw then
      ({ s with x := ratCeil (s.x / size_incs) * size_incs }, false, [])
    else (s, false, [])
  | .newline =>
    (⟨lineStartX sp maxw ta lw s.line, s.y + lh.getD s.line 0, s.line + 1⟩, false, [])
  | .space sz fnt =>
    let ps := sizeEval sz
    ({ s with x := s.x + fo fnt false [' '] ps }, false, [])
  | .text txt st =>
    let ps := sizeEval st.size
    let w := fo st.font st.bold txt ps
    let x1 := if st.italic then s.x + ps * italicAdvanceFac else s.x
    if x1 + w - sp.1 > maxw then
      let s2 : DState :=
        ⟨lineStartX sp maxw ta lw s.line, s.y + lh.getD s.line 0, s.line + 1⟩
      (⟨s2.x + w, s2.y, s2.line⟩, true,
        [⟨txt, s2.x, s2.y + lh.getD s2.line 0 - ps, ps, st.bold, st.italic, st.font⟩])
    else
      (⟨x1 + w, s.y, s.line⟩, false,
        [⟨txt, x1, s.y + lh.getD s.line 0 - ps, ps, st.bold, st.italic, st.font⟩])
  | .placeholder idx padc pada st =>
    match ph idx with
    | none => (s, false, [])
    | some v =>
      let ps := sizeEval st.size
      let txt := padNum v (absWrap8 pada) padc (padDirOfAmount pada)
      let w := fo st.font st.bold txt ps + (if st.italic then ps * italicAdvanceFac else 0)
      if s.x + w - sp.1 > maxw then
        let s2 : DState :=
          ⟨lineStartX sp maxw ta lw s.line, s.y + lh.getD s.line 0, s.line + 1⟩
        (⟨s2.x + w, s2.y, s2.line⟩, true,
          [⟨txt, s2.x, s2.y + lh.getD s2.line 0 - ps, ps, st.bold, st.italic, st.font⟩])
      else
        (⟨s.x + w, s.y, s.line⟩, false,
          [⟨txt, s.x, s.y + lh.getD s.line 0 - ps, ps, st.bold, st.italic, st.font⟩])

/-- The draw pass, state only. -/
def drawFold (fo : FontOracle) (sizeEval : Str → ℚ) (ph : Str → Option Int)
    (maxw ds : ℚ) (sp : ℚ × ℚ) (ta : ℚ) (lw lh : List ℚ) (s : DState) :
    List TextPart → DState
  | [] => s
  | p :: ps =>
    drawFold fo sizeEval ph maxw ds sp ta lw lh
      (drawStep fo sizeEval ph maxw ds sp ta lw lh s p).1 ps

/-- The draw pass, per-token wrap flags. -/
def drawTrace (fo : FontOracle) (sizeEval : Str → ℚ) (ph : Str → Option Int)
    (maxw ds : ℚ) (sp : ℚ × ℚ) (ta : ℚ) (lw lh : List ℚ) (s : DState) :
    List TextPart → List Bool
  | [] => []
  | p :: ps =>
    (drawStep fo sizeEval ph maxw ds sp ta lw lh s p).2.1 ::
      drawTrace fo sizeEval ph maxw ds sp ta lw lh
        (drawStep fo sizeEval ph maxw ds sp ta lw lh s p).1 ps

/-- The draw pass, emitted glyph runs. -/
def drawEventsRun (fo : FontOracle) (sizeEval : Str → ℚ) (ph : Str → Option Int)
    (maxw ds : ℚ) (sp : ℚ × ℚ) (ta : ℚ) (lw lh : List ℚ) (s : DState) :
    List TextPart → List DrawEvent
  | [] => []
  | p :: ps =>
    (drawStep fo sizeEval ph maxw ds sp ta lw lh s p).2.2 ++
      drawEventsRun fo sizeEval ph maxw ds sp ta lw lh
        (drawStep fo sizeEval ph maxw ds sp ta lw lh s p).1 ps

/-- The sentinel line data pushed after the measurement pass
(`line_widths.push(0.0); line_heights.push(default_size)`). -/
def sentinelLw (m : MState) : List ℚ := m.line_widths ++ [0]

/-- The sentinel line heights. -/
def sentinelLh (m : MState) (ds : ℚ) : List ℚ := m.line_heights ++ [ds]

/-- The box starting position
(`(current_pos.0 - max_width*alignment.0, current_pos.1 - height*alignment.1)`). -/
def startingPos (pos : ℚ × ℚ) (maxw : ℚ) (al : Alignment') (height : ℚ) : ℚ × ℚ :=
  (pos.1 - maxw * al.multipliers.1, pos.2 - height * al.multipliers.2)

/-- The initial draw state: line 0 at its text-aligned start x. -/
def dInit (sp : ℚ × ℚ) (maxw ta : ℚ) (lw : List ℚ) : DState :=
  ⟨lineStartX sp maxw ta lw 0, sp.2, 0⟩

/-- Wrap flags of the full measurement pass of `Text::render`. -/
def textMeasureTrace (fo : FontOracle) (sizeEval : Str → ℚ) (ph : Str → Option Int)
    (maxw ds : ℚ) (parts : List TextPart) : List Bool :=
  measureTrace fo sizeEval ph maxw ds (mInit ds) parts

/-- Wrap flags of the full draw pass of `Text::render` (which reuses the
line tables of the measurement pass plus the sentinel entries). -/
def textDrawTrace (fo : FontOracle) (sizeEval : Str → ℚ) (ph : Str → Option Int)
    (maxw ds : ℚ) (pos : ℚ × ℚ) (al talign : Alignment') (parts : List TextPart) :
    List Bool :=
  let m := measureFold fo sizeEval ph maxw ds (mInit ds) parts
  let lw := sentinelLw m
  let lh := sentinelLh m ds
  let sp := startingPos pos maxw al m.height
  let ta := talign.multipliers.1
  drawTrace fo sizeEval ph maxw ds sp ta lw lh (dInit sp maxw ta lw) parts

/-- Glyph runs emitted by the full draw pass of `Text::render`. -/
def textRenderEvents (fo : FontOracle) (sizeEval : Str → ℚ) (ph : Str → Option Int)
    (maxw ds : ℚ) (pos : ℚ × ℚ) (al talign : Alignment') (parts : List TextPart) :
    List DrawEvent :=
  let m := measureFold fo sizeEval ph maxw ds (mInit ds) parts
  let lw := sentinelLw m
  let lh := sentinelLh m ds
  let sp := startingPos pos maxw al m.height
  let ta := talign.multipliers.1
  drawEventsRun fo sizeEval ph maxw ds sp ta lw lh (dInit sp maxw ta lw) parts

/-! ## Concrete fixtures

Shared concrete instances of the external collaborators used by the
evaluation theorems: a Lua runtime that compiles nothing, a registry with
one font `F`, a white base color, a stub metrics service where every
character is 10 px wide, and a size evaluation returning 10 px. -/

/-- A Lua collaborator that loads nothing. -/
def luaOff : LuaOracle := fun _ => .error "Lua chunk rejected"

/-- A font registry holding the single font `F`. -/
def fontsF : List Str := [['F']]

/-- The base color expression strings `1;1;1;1`. -/
def colorOnes : List Str := [['1'], ['1'], ['1'], ['1']]

/-- Stub glyph metrics: every character is 10 px wide. -/
def charStub : FontOracle := fun _ _ txt _ => 10 * txt.length

/-- Size-expression evaluation returning 10 px for every stored string. -/
def sizeTen : Str → ℚ := fun _ => 10

/-- The inherited style of a run parsed with the base size `10`, font `F`
and white color. -/
def styleBase : TStyle := ⟨false, false, colorOnes, ['1', '0'], ['F']⟩

/-- C6.  For every shape and every alignment, the drawn origin is
`pos - size * (mx, my)` with the multiplier pair taken from the
`{Top,Mid,Bottom} × {Left,Right,Centered}` grid mapped into `{0, 1/2, 1}²`;
concretely `pos=(100,100)`, `size=(20,10)`, `MidCentered` gives `(90,95)`. -/
theorem C6_alignment_placement :
    (Alignment'.TopLeft.multipliers = (0, 0)
      ∧ Alignment'.TopRight.multipliers = (1, 0)
      ∧ Alignment'.TopCentered.multipliers = (1 / 2, 0)
      ∧ Alignment'.MidLeft.multipliers = (0, 1 / 2)
      ∧ Alignment'.MidRight.multipliers = (1, 1 / 2)
      ∧ Alignment'.MidCentered.multipliers = (1 / 2, 1 / 2)
      ∧ Alignment'.BottomLeft.multipliers = (0, 1)
      ∧ Alignment'.BottomRight.multipliers = (1, 1)
      ∧ Alignment'.BottomCentered.multipliers = (1 / 2, 1))
    ∧ (∀ (pos size : ℚ × ℚ) (a : Alignment'),
        coloredRectRect pos size a =
          (pos.1 - size.1 * a.multipliers.1, pos.2 - size.2 * a.multipliers.2,
            size.1, size.2)
        ∧ roundedRectOrigin pos size a =
          (pos.1 - size.1 * a.multipliers.1, pos.2 - size.2 * a.multipliers.2)
        ∧ imageRect pos size a =
          (pos.1 - size.1 * a.multipliers.1, pos.2 - size.2 * a.multipliers.2,
            size.1, size.2))
    ∧ coloredRectRect (100, 100) (20, 10) .MidCentered = (90, 95, 20, 10) := by
  refine ⟨⟨rfl, rfl, rfl, rfl, rfl, rfl, rfl, rfl, rfl⟩, fun pos size a => ⟨rfl, rfl, rfl⟩, ?_⟩
  simp only [coloredRectRect, Alignment'.multipliers]
  norm_num

/-- C9.  `pad_num` renders the value as a decimal string and pads with
`pad_char` on the side selected by the direction, exactly `pad_amount -
length` copies when the length is short of `pad_amount` and none otherwise
(so never truncating); with the concrete instances of the claim. -/
theorem C9_pad_num_spec :
    (∀ (num pa : Int) (pc : Str), 0 ≤ pa → pa ≤ 127 → (intChars num).length ≤ 127 →
      padNum num pa pc ['<'] =
        strRepeat (pa.toNat - (intChars num).length) pc ++ intChars num
      ∧ padNum num pa pc ['>'] =
        intChars num ++ strRepeat (pa.toNat - (intChars num).length) pc)
    ∧ padNum 7 3 ['0'] ['<'] = ['0', '0', '7']
    ∧ padNum 7 3 ['0'] ['>'] = ['7', '0', '0']
    ∧ padNum 12345 3 ['0'] ['<'] = ['1', '2', '3', '4', '5'] := by
  refine ⟨?_, by decide, by decide, by decide⟩
  intro num pa pc h0 h127 hlen
  have hw : wrap8 ((intChars num).length : Int) = (intChars num).length := by
    unfold wrap8; omega
  by_cases hlt : ((intChars num).length : Int) < pa
  · have hpos : (0 : Int) < pa - wrap8 ((intChars num).length : Int) := by omega
    constructor <;> simp [padNum, hpos]
  · have hneg : ¬ (0 : Int) < pa - wrap8 ((intChars num).length : Int) := by omega
    have hz : pa.toNat - (intChars num).length = 0 := by omega
    constructor <;> simp [padNum, hneg, hz, strRepeat]

/-- Witness for C9 at `num = 7`, `pad_amount = 3`, `pad_char = "0"`. -/
theorem C9_pad_num_spec_witness :
    (0 : Int) ≤ 3 ∧ (3 : Int) ≤ 127 ∧ (intChars 7).length ≤ 127 ∧
      (padNum 7 3 ['0'] ['<'] =
        strRepeat ((3 : Int).toNat - (intChars 7).length) ['0'] ++ intChars 7
      ∧ padNum 7 3 ['0'] ['>'] =
        intChars 7 ++ strRepeat ((3 : Int).toNat - (intChars 7).length) ['0']) :=
  ⟨by decide, by decide, by decide,
    C9_pad_num_spec.1 7 3 ['0'] (by decide) (by decide) (by decide)⟩

/-- The placeholder source line `{0<3{n}}` (braces written as escapes). -/
def phInput : Str := ['\x7b', '0', '<', '3', '\x7b', 'n', '\x7d', '\x7d']

/-- A placeholder map carrying `n ↦ 7` at the frame under consideration. -/
def phSeven : Str → Option Int := fun s => if s = ['n'] then some 7 else none

/-- C2.  The pad direction captured at tokenization time does NOT determine
the padding side: tokenizing `{0<3{n}}` stores only `pad_char = "0"` and
`pad_amount = 3` (the `<` capture is dropped), the render pass selects the
direction from the sign of `pad_amount` (`>` for the non-negative 3), and
the drawn substitution for `n = 7` is the right-padded `"700"`, not the
left-padded `"007"` required by the `<` in the source text. -/
theorem C2_pad_direction_dropped :
    textNewParts luaOff fontsF [phInput] ['1', '0'] ['F'] colorOnes
      = .ok [.placeholder ['n'] ['0'] 3 styleBase, .newline]
    ∧ padDirOfAmount 3 = ['>']
    ∧ textRenderEvents charStub sizeTen phSeven 100 10 (0, 0) .TopLeft .TopLeft
        [.placeholder ['n'] ['0'] 3 styleBase, .newline]
      = [⟨['7', '0', '0'], 0, 0, 10, false, false, ['F']⟩]
    ∧ (['7', '0', '0'] : Str) ≠ ['0', '0', '7'] := by
  refine ⟨by rfl, by rfl, ?_, by decide⟩
  norm_num +decide [textRenderEvents, measureFold, measureStep, drawEventsRun, drawStep, mInit,
    sentinelLw, sentinelLh, startingPos, dInit, lineStartX, Alignment'.multipliers,
    padNum, padDirOfAmount, absWrap8, wrap8, intChars, natChars, natCharsAux, strRepeat,
    charStub, sizeTen, phSeven, italicAdvanceFac, styleBase]

/-- Size-expression evaluation where the stored string `B` evaluates to
100 px and everything else to 10 px. -/
def sizeAB : Str → ℚ := fun s => if s = ['B'] then 100 else 10

/-- A plain 10 px style. -/
def styleA : TStyle := ⟨false, false, colorOnes, ['A'], ['F']⟩

/-- An italic 100 px style. -/
def styleBItal : TStyle := ⟨false, true, colorOnes, ['B'], ['F']⟩

/-- A token sequence on which the two passes disagree: a 50 px word, a
60 px italic word at size 100 (italic correction 10 px), a 40 px word,
with `max_width = 100`. -/
def c1Parts : List TextPart :=
  [.text ['b', 'b', 'b', 'b', 'b'] styleA,
   .text ['a', 'a', 'a', 'a', 'a', 'a'] styleBItal,
   .text ['c', 'c', 'c', 'c'] styleA]

/-- C1.  The measurement pass and the draw pass do NOT make identical
line-break decisions: on `c1Parts` (left box alignment, left text
alignment, every character 10 px) the measurement pass wraps at the second
AND third token, while the draw pass wraps only at the second — after an
italic-caused wrap the draw pass loses the italic advance it had already
added, so its pen sits 10 px short of the measured line width and the
third token still fits. -/
theorem C1_breaks_diverge :
    textMeasureTrace charStub sizeAB (fun _ => none) 100 10 c1Parts = [false, true, true]
    ∧ textDrawTrace charStub sizeAB (fun _ => none) 100 10 (0, 0) .TopLeft .TopLeft c1Parts
      = [false, true, false]
    ∧ ([false, true, true] : List Bool) ≠ [false, true, false] := by
  refine ⟨?_, ?_, by decide⟩
  · norm_num +decide [textMeasureTrace, measureTrace, measureStep, mInit, c1Parts,
      charStub, sizeAB, italicAdvanceFac, styleA, styleBItal]
  · norm_num +decide [textDrawTrace, measureFold, measureStep, drawTrace, drawStep, mInit,
      sentinelLw, sentinelLh, startingPos, dInit, lineStartX, Alignment'.multipliers,
      c1Parts, charStub, sizeAB, italicAdvanceFac, styleA, styleBItal]

/-- The markup line `**bold** and *italic*`. -/
def c4Input : Str :=
  ['*', '*', 'b', 'o', 'l', 'd', '*', '*', ' ', 'a', 'n', 'd', ' ',
   '*', 'i', 't', 'a', 'l', 'i', 'c', '*']

/-- The surviving runs of tokenizing `c4Input`. -/
def c4Parts : List TextPart :=
  [.text ['b', 'o', 'l', 'd'] { styleBase with bold := true },
   .space ['1', '0'] ['F'],
   .text ['a', 'n', 'd'] styleBase,
   .space ['1', '0'] ['F'],
   .text ['i', 't', 'a', 'l', 'i', 'c'] { styleBase with italic := true }]

/-- C4.  Tokenizing `**bold** and *italic*` with the default style yields
exactly: the run `bold` with `bold=true, italic=false`, a space, the plain
run `and`, a space, and the run `italic` with `italic=true, bold=false`;
and the concatenated visible text with spaces restored is
`bold and italic`. -/
theorem C4_markup_tokenization :
    textParse luaOff fontsF c4Input ['1', '0'] ['F'] false false colorOnes = .ok c4Parts
    ∧ restoreText c4Parts =
      ['b', 'o', 'l', 'd', ' ', 'a', 'n', 'd', ' ', 'i', 't', 'a', 'l', 'i', 'c'] := by
  exact ⟨by rfl, by rfl⟩

/-- The source line `aaaaa bbbbb ccccc`. -/
def c3Input : Str :=
  ['a', 'a', 'a', 'a', 'a', ' ', 'b', 'b', 'b', 'b', 'b', ' ', 'c', 'c', 'c', 'c', 'c']

/-- The token sequence of one line `aaaaa bbbbb ccccc`. -/
def c3Parts : List TextPart :=
  [.text ['a', 'a', 'a', 'a', 'a'] styleBase,
   .space ['1', '0'] ['F'],
   .text ['b', 'b', 'b', 'b', 'b'] styleBase,
   .space ['1', '0'] ['F'],
   .text ['c', 'c', 'c', 'c', 'c'] styleBase,
   .newline]

/-- C3.  Measurement-pass line breaking is greedy: a `Text` (or resolved
`Placeholder`) token whose measured width no longer fits is preceded by a
flush of the current line and opens the new line with exactly its own
width; and concretely, the tokenized `aaaaa bbbbb ccccc` with every
character 10 px wide and `max_width = 55` measures as exactly three lines
of width 50 each, wrapping at `bbbbb` and at `ccccc`. -/
theorem C3_greedy_wrap :
    (∀ (fo : FontOracle) (sizeEval : Str → ℚ) (ph : Str → Option Int) (maxw ds : ℚ)
       (s : MState) (txt : Str) (st : TStyle),
       s.curr_width + (fo st.font st.bold txt (sizeEval st.size) +
         (if st.italic then sizeEval st.size * italicAdvanceFac else 0)) > maxw →
       measureStep fo sizeEval ph maxw ds s (.text txt st) =
         (⟨s.height +
             (if sizeEval st.size > s.curr_max_height then sizeEval st.size
              else s.curr_max_height),
           s.line_widths ++ [s.curr_width],
           s.line_heights ++
             [if sizeEval st.size > s.curr_max_height then sizeEval st.size
              else s.curr_max_height],
           fo st.font st.bold txt (sizeEval st.size) +
             (if st.italic then sizeEval st.size * italicAdvanceFac else 0), ds⟩, true))
    ∧ (∀ (fo : FontOracle) (sizeEval : Str → ℚ) (ph : Str → Option Int) (maxw ds : ℚ)
       (s : MState) (idx padc : Str) (pada : Int) (st : TStyle) (v : Int),
       ph idx = some v →
       s.curr_width +
           (fo st.font st.bold (padNum v (absWrap8 pada) padc (padDirOfAmount pada))
              (sizeEval st.size) +
            (if st.italic then sizeEval st.size * italicAdvanceFac else 0)) > maxw →
       measureStep fo sizeEval ph maxw ds s (.placeholder idx padc pada st) =
         (⟨s.height +
             (if s.curr_max_height < sizeEval st.size then sizeEval st.size
              else s.curr_max_height),
           s.line_widths ++ [s.curr_width],
           s.line_heights ++
             [if s.curr_max_height < sizeEval st.size then sizeEval st.size
              else s.curr_max_height],
           fo st.font st.bold (padNum v (absWrap8 pada) padc (padDirOfAmount pada))
               (sizeEval st.size) +
             (if st.italic then sizeEval st.size * italicAdvanceFac else 0), ds⟩, true))
    ∧ textNewParts luaOff fontsF [c3Input] ['1', '0'] ['F'] colorOnes = .ok c3Parts
    ∧ textMeasureTrace charStub sizeTen (fun _ => none) 55 10 c3Parts
      = [false, false, true, false, true, false]
    ∧ (measureFold charStub sizeTen (fun _ => none) 55 10 (mInit 10) c3Parts).line_widths
      = [50, 50, 50] := by
  refine ⟨?_, ?_, by rfl, ?_, ?_⟩
  · intro fo sizeEval ph maxw ds s txt st hover
    simp only [measureStep]
    rw [if_pos hover]
  · intro fo sizeEval ph maxw ds s idx padc pada st v hv hover
    simp only [measureStep, hv]
    rw [if_pos hover]
  · norm_num +decide [textMeasureTrace, measureTrace, measureStep, mInit, c3Parts,
      charStub, sizeTen, styleBase]
  · norm_num +decide [measureFold, measureStep, mInit, c3Parts, charStub, sizeTen, styleBase]

/-- Witness for C3 at the state just before `bbbbb` in the concrete run
(`curr_width = 50`, `max_width = 55`). -/
theorem C3_greedy_wrap_witness :
    ((⟨0, [], [], 50, 10⟩ : MState).curr_width +
        (charStub styleBase.font styleBase.bold ['b', 'b', 'b', 'b', 'b']
            (sizeTen styleBase.size) +
          (if styleBase.italic then sizeTen styleBase.size * italicAdvanceFac else 0))
        > 55)
    ∧ measureStep charStub sizeTen (fun _ => none) 55 10 ⟨0, [], [], 50, 10⟩
        (.text ['b', 'b', 'b', 'b', 'b'] styleBase) =
      (⟨(0 : ℚ) +
          (if sizeTen styleBase.size > (10 : ℚ) then sizeTen styleBase.size else (10 : ℚ)),
        ([] : List ℚ) ++ [50],
        ([] : List ℚ) ++
          [if sizeTen styleBase.size > (10 : ℚ) then sizeTen styleBase.size else (10 : ℚ)],
        charStub styleBase.font styleBase.bold ['b', 'b', 'b', 'b', 'b']
            (sizeTen styleBase.size) +
          (if styleBase.italic then sizeTen styleBase.size * italicAdvanceFac else 0),
        10⟩, true) := by
  have hover : ((⟨0, [], [], 50, 10⟩ : MState).curr_width +
      (charStub styleBase.font styleBase.bold ['b', 'b', 'b', 'b', 'b']
          (sizeTen styleBase.size) +
        (if styleBase.italic then sizeTen styleBase.size * italicAdvanceFac else 0))
      > 55) := by
    norm_num +decide [charStub, sizeTen, styleBase]
  exact ⟨hover, C3_greedy_wrap.1 charStub sizeTen (fun _ => none) 55 10
    ⟨0, [], [], 50, 10⟩ ['b', 'b', 'b', 'b', 'b'] styleBase hover⟩

/-- The measurement pass distributes over concatenation of token lists. -/
theorem measureFold_append (fo : FontOracle) (sizeEval : Str → ℚ) (ph : Str → Option Int)
    (maxw ds : ℚ) (s : MState) (xs ys : List TextPart) :
    measureFold fo sizeEval ph maxw ds s (xs ++ ys)
      = measureFold fo sizeEval ph maxw ds (measureFold fo sizeEval ph maxw ds s xs) ys := by
  induction xs generalizing s with
  | nil => rfl
  | cons p ps ih =>
    simp only [List.cons_append, measureFold]
    exact ih _

/-- The draw pass distributes over concatenation of token lists. -/
theorem drawFold_append (fo : FontOracle) (sizeEval : Str → ℚ) (ph : Str → Option Int)
    (maxw ds : ℚ) (sp : ℚ × ℚ) (ta : ℚ) (lw lh : List ℚ) (d : DState)
    (xs ys : List TextPart) :
    drawFold fo sizeEval ph maxw ds sp ta lw lh d (xs ++ ys)
      = drawFold fo sizeEval ph maxw ds sp ta lw lh
          (drawFold fo sizeEval ph maxw ds sp ta lw lh d xs) ys := by
  induction xs generalizing d with
  | nil => rfl
  | cons p ps ih =>
    simp only [List.cons_append, drawFold]
    exact ih _

/-- The emitted glyph runs distribute over concatenation of token lists. -/
theorem drawEventsRun_append (fo : FontOracle) (sizeEval : Str → ℚ) (ph : Str → Option Int)
    (maxw ds : ℚ) (sp : ℚ × ℚ) (ta : ℚ) (lw lh : List ℚ) (d : DState)
    (xs ys : List TextPart) :
    drawEventsRun fo sizeEval ph maxw ds sp ta lw lh d (xs ++ ys)
      = drawEventsRun fo sizeEval ph maxw ds sp ta lw lh d xs ++
          drawEventsRun fo sizeEval ph maxw ds sp ta lw lh
            (drawFold fo sizeEval ph maxw ds sp ta lw lh d xs) ys := by
  induction xs generalizing d with
  | nil => rfl
  | cons p ps ih =>
    simp only [List.cons_append, drawEventsRun, drawFold, List.append_assoc]
    rw [show ps.append ys = ps ++ ys from rfl, ih]

/-- C5.  A `Placeholder` token whose name has no entry in the placeholder
map is a complete no-op in both passes: the measurement step returns the
state unchanged with no wrap, the draw step returns the state unchanged
with no wrap and draws nothing, and inserting such a token anywhere in a
token sequence changes neither the final measurement state, nor the final
draw state, nor the emitted glyph runs. -/
theorem C5_missing_placeholder_noop :
    ∀ (fo : FontOracle) (sizeEval : Str → ℚ) (ph : Str → Option Int) (maxw ds : ℚ)
      (sp : ℚ × ℚ) (ta : ℚ) (lw lh : List ℚ) (idx padc : Str) (pada : Int) (st : TStyle)
      (s : MState) (d : DState) (xs ys : List TextPart),
      ph idx = none →
      measureStep fo sizeEval ph maxw ds s (.placeholder idx padc pada st) = (s, false)
      ∧ drawStep fo sizeEval ph maxw ds sp ta lw lh d (.placeholder idx padc pada st)
        = (d, false, [])
      ∧ measureFold fo sizeEval ph maxw ds s (xs ++ .placeholder idx padc pada st :: ys)
        = measureFold fo sizeEval ph maxw ds s (xs ++ ys)
      ∧ drawFold fo sizeEval ph maxw ds sp ta lw lh d
          (xs ++ .placeholder idx padc pada st :: ys)
        = drawFold fo sizeEval ph maxw ds sp ta lw lh d (xs ++ ys)
      ∧ drawEventsRun fo sizeEval ph maxw ds sp ta lw lh d
          (xs ++ .placeholder idx padc pada st :: ys)
        = drawEventsRun fo sizeEval ph maxw ds sp ta lw lh d (xs ++ ys) := by
  intro fo sizeEval ph maxw ds sp ta lw lh idx padc pada st s d xs ys hnone
  have hm : measureStep fo sizeEval ph maxw ds s (.placeholder idx padc pada st)
      = (s, false) := by
    simp only [measureStep, hnone]
  have hd : drawStep fo sizeEval ph maxw ds sp ta lw lh d (.placeholder idx padc pada st)
      = (d, false, []) := by
    simp only [drawStep, hnone]
  refine ⟨hm, hd, ?_, ?_, ?_⟩
  · rw [measureFold_append, measureFold_append]
    have : ∀ s2 : MState,
        measureFold fo sizeEval ph maxw ds s2 (.placeholder idx padc pada st :: ys)
          = measureFold fo sizeEval ph maxw ds s2 ys := by
      intro s2
      simp only [measureFold, measureStep, hnone]
    rw [this]
  · rw [drawFold_append, drawFold_append]
    have : ∀ d2 : DState,
        drawFold fo sizeEval ph maxw ds sp ta lw lh d2
            (.placeholder idx padc pada st :: ys)
          = drawFold fo sizeEval ph maxw ds sp ta lw lh d2 ys := by
      intro d2
      simp only [drawFold, drawStep, hnone]
    rw [this]
  · rw [drawEventsRun_append, drawEventsRun_append]
    have h1 : ∀ d2 : DState,
        drawEventsRun fo sizeEval ph maxw ds sp ta lw lh d2
            (.placeholder idx padc pada st :: ys)
          = drawEventsRun fo sizeEval ph maxw ds sp ta lw lh d2 ys := by
      intro d2
      simp only [drawEventsRun, drawStep, hnone, List.nil_append]
    rw [h1]

/-- Witness for C5: a missing placeholder between two words is a no-op for
the concrete stub configuration. -/
theorem C5_missing_placeholder_noop_witness :
    (fun (_ : Str) => (none : Option Int)) ['m'] = none
    ∧ (measureStep charStub sizeTen (fun _ => none) 55 10 (mInit 10)
        (.placeholder ['m'] ['0'] 3 styleBase) = (mInit 10, false)
      ∧ drawStep charStub sizeTen (fun _ => none) 55 10 (0, 0) 0 [0] [10] ⟨0, 0, 0⟩
          (.placeholder ['m'] ['0'] 3 styleBase) = (⟨0, 0, 0⟩, false, [])
      ∧ measureFold charStub sizeTen (fun _ => none) 55 10 (mInit 10)
          ([.text ['a'] styleBase] ++ .placeholder ['m'] ['0'] 3 styleBase ::
            [.text ['b'] styleBase])
        = measureFold charStub sizeTen (fun _ => none) 55 10 (mInit 10)
            ([.text ['a'] styleBase] ++ [.text ['b'] styleBase])
      ∧ drawFold charStub sizeTen (fun _ => none) 55 10 (0, 0) 0 [0] [10] ⟨0, 0, 0⟩
          ([.text ['a'] styleBase] ++ .placeholder ['m'] ['0'] 3 styleBase ::
            [.text ['b'] styleBase])
        = drawFold charStub sizeTen (fun _ => none) 55 10 (0, 0) 0 [0] [10] ⟨0, 0, 0⟩
            ([.text ['a'] styleBase] ++ [.text ['b'] styleBase])
      ∧ drawEventsRun charStub sizeTen (fun _ => none) 55 10 (0, 0) 0 [0] [10] ⟨0, 0, 0⟩
          ([.text ['a'] styleBase] ++ .placeholder ['m'] ['0'] 3 styleBase ::
            [.text ['b'] styleBase])
        = drawEventsRun charStub sizeTen (fun _ => none) 55 10 (0, 0) 0 [0] [10] ⟨0, 0, 0⟩
            ([.text ['a'] styleBase] ++ [.text ['b'] styleBase])) :=
  ⟨rfl, C5_missing_placeholder_noop charStub sizeTen (fun _ => none) 55 10 (0, 0) 0
    [0] [10] ['m'] ['0'] 3 styleBase (mInit 10) ⟨0, 0, 0⟩
    [.text ['a'] styleBase] [.text ['b'] styleBase] rfl⟩

/-- Percent substitution distributes over concatenation. -/
theorem replacePercent_append (ty : ResExprType) (a b : Str) :
    replacePercent ty (a ++ b) = replacePercent ty a ++ replacePercent ty b := by
  induction a with
  | nil => rfl
  | cons c cs ih =>
    by_cases hc : c = '%' <;> simp [replacePercent, hc, ih]

/-- The substituted text contains no further `%`, so percent substitution
is idempotent. -/
theorem replacePercent_idem (ty : ResExprType) (e : Str) :
    replacePercent ty (replacePercent ty e) = replacePercent ty e := by
  induction e with
  | nil => rfl
  | cons c cs ih =>
    by_cases hc : c = '%'
    · subst hc
      have h1 : replacePercent ty ('%' :: cs)
          = '/' :: '1' :: '0' :: '0' :: '*' :: (ty.str ++ replacePercent ty cs) := rfl
      have h2 : ∀ s : Str, replacePercent ty ('/' :: '1' :: '0' :: '0' :: '*' :: s)
          = '/' :: '1' :: '0' :: '0' :: '*' :: replacePercent ty s := fun s => rfl
      have hstr : replacePercent ty ty.str = ty.str := by cases ty <;> rfl
      rw [h1, h2, replacePercent_append, hstr, ih]
    · simp only [replacePercent, if_neg hc, ih]

/-- Whether `res_dependent_expr` consults the Lua fallback on this input:
the substituted string parses as a math expression but fails the bind. -/
def usesLuaFallback (e : Str) (ty : ResExprType) : Bool :=
  match mparseExpr (replacePercent ty e) with
  | .error _ => false
  | .ok ast =>
    match bindCheckE ast with
    | .ok _ => false
    | .error _ => true

/-- The evaluated value of a constructed math-path expression at
`(w, h, t)` (`none` for errors and Lua-path expressions, whose value lives
in the external runtime). -/
def mathEvalOf (r : Except PropertyError RDExpr) (w h t : ℚ) : Option ℚ :=
  match r with
  | .ok (.MathExpr ast _ _) => some (mevalE ast w h t)
  | _ => none

/-- The string `50%`. -/
def str50pct : Str := ['5', '0', '%']

/-- The string `0.5*w`. -/
def strHalfW : Str := ['0', '.', '5', '*', 'w']

/-- C7 (amended).  Whenever the Lua fallback is not consulted, parsing a
string is interchangeable with parsing its `%`-substituted form (the code
substitutes before the math parse, and substitution is idempotent); and
concretely `50%` in width context evaluates at `w = 1280` to 640, the same
value as `0.5*w`. -/
theorem C7_percent_substitution :
    (∀ (e : Str) (ty : ResExprType) (lua : LuaOracle),
      usesLuaFallback e ty = false →
      resDependentExpr e ty lua = resDependentExpr (replacePercent ty e) ty lua)
    ∧ (∀ (h t : ℚ) (lua : LuaOracle),
      mathEvalOf (resDependentExpr str50pct .WidthBased lua) 1280 h t = some 640
      ∧ mathEvalOf (resDependentExpr strHalfW .WidthBased lua) 1280 h t = some 640) := by
  constructor
  · intro e ty lua hf
    unfold resDependentExpr
    simp only [replacePercent_idem]
    cases hp : mparseExpr (replacePercent ty e) with
    | error d => rfl
    | ok ast =>
      cases hb : bindCheckE ast with
      | ok u => simp only [hb]
      | error bd =>
        exfalso
        unfold usesLuaFallback at hf
        rw [hp] at hf
        simp only [] at hf
        rw [hb] at hf
        simp at hf
  · intro h t lua
    have hres50 : resDependentExpr str50pct .WidthBased lua
        = .ok (.MathExpr
            (.mul (.div (.num (mkNumQ ['5', '0'] [])) (.num (mkNumQ ['1', '0', '0'] [])))
              (.var ['w']))
            ['5', '0', '/', '1', '0', '0', '*', 'w'] .WidthBased) := rfl
    have hresH : resDependentExpr strHalfW .WidthBased lua
        = .ok (.MathExpr (.mul (.num (mkNumQ ['0'] ['5'])) (.var ['w']))
            strHalfW .WidthBased) := rfl
    have h50 : mkNumQ ['5', '0'] [] = ((50 : ℕ) : ℚ) := rfl
    have h100 : mkNumQ ['1', '0', '0'] [] = ((100 : ℕ) : ℚ) := rfl
    have h05 : mkNumQ ['0'] ['5'] = ((0 : ℕ) : ℚ) + ((5 : ℕ) : ℚ) / 10 ^ (1 : ℕ) := rfl
    constructor
    · rw [hres50]
      simp only [mathEvalOf, mevalE, h50, h100]
      norm_num
    · rw [hresH]
      simp only [mathEvalOf, mevalE, h05]
      norm_num

/-- Witness for C7 at `e = 1+2` (no Lua fallback consulted). -/
theorem C7_percent_substitution_witness :
    usesLuaFallback ['1', '+', '2'] .WidthBased = false
    ∧ resDependentExpr ['1', '+', '2'] .WidthBased luaOff
      = resDependentExpr (replacePercent .WidthBased ['1', '+', '2']) .WidthBased luaOff :=
  ⟨by rfl, C7_percent_substitution.1 ['1', '+', '2'] .WidthBased luaOff (by rfl)⟩

/-- The string `f(1%)`: a valid Lua call statement (loadable chunk) whose
substituted form parses as a math call to the unknown function `f`. -/
def strFPct : Str := ['f', '(', '1', '%', ')']

/-- The string `f(1/100*w)`, the `%`-substituted form of `f(1%)`. -/
def strFSub : Str := ['f', '(', '1', '/', '1', '0', '0', '*', 'w', ')']

/-- The Lua collaborator at this input: `f(1/100*w)` is a syntactically
valid call statement and compiles; `f(1%)` has a dangling `%` operator and
is rejected. -/
def luaC7 : LuaOracle := fun s =>
  if s = strFSub then .ok 0 else .error "lua: unexpected symbol"

/-- Counterexample to C7 as stated: parsing `f(1%)` in width context fails
(`MultiError`), while parsing its `%`-substituted form `f(1/100*w)`
succeeds (as a Lua expression) — the Lua fallback compiles the ORIGINAL
string without substitution, so the two parses are not equivalent. -/
theorem C7_counterexample :
    replacePercent .WidthBased strFPct = strFSub
    ∧ isOkE (resDependentExpr strFPct .WidthBased luaC7) = false
    ∧ isOkE (resDependentExpr strFSub .WidthBased luaC7) = true := by
  refine ⟨by rfl, by rfl, by rfl⟩

/-- Whether every `;`-separated component parses in its alternating
width/height context, mirroring the success condition of the
`parse_expression_list` loop. -/
def partsAllParse (lua : LuaOracle) : Nat → List Str → Bool
  | _, [] => true
  | i, p :: ps => isOkE (resDependentExpr p (ctxOf i) lua) && partsAllParse lua (i + 1) ps

/-- Mapping the payload does not change whether an `Except` is ok. -/
theorem isOkE_map {α β : Type} (f : α → β) (x : Except PropertyError α) :
    isOkE (x.map f) = isOkE x := by cases x <;> rfl

/-- The component loop succeeds exactly when every component parses. -/
theorem parseExprListAux_isOk (lua : LuaOracle) (i : Nat) (ps : List Str) :
    isOkE (parseExprListAux lua i ps) = partsAllParse lua i ps := by
  induction ps generalizing i with
  | nil => rfl
  | cons p ps ih =>
    simp only [parseExprListAux, partsAllParse]
    cases hr : resDependentExpr p (ctxOf i) lua with
    | error e => simp [isOkE]
    | ok r =>
      rw [isOkE_map, ih (i + 1)]
      simp [isOkE]

/-- A successful component loop returns one expression per component. -/
theorem parseExprListAux_length (lua : LuaOracle) (i : Nat) (ps : List Str)
    (v : List RDExpr) (hv : parseExprListAux lua i ps = .ok v) : v.length = ps.length := by
  induction ps generalizing i v with
  | nil =>
    simp only [parseExprListAux] at hv
    cases hv
    rfl
  | cons p ps ih =>
    simp only [parseExprListAux] at hv
    cases hr : resDependentExpr p (ctxOf i) lua with
    | error e => rw [hr] at hv; cases hv
    | ok r =>
      rw [hr] at hv
      cases hrec : parseExprListAux lua (i + 1) ps with
      | error e2 => rw [hrec] at hv; cases hv
      | ok v2 =>
        rw [hrec] at hv
        cases hv
        simp [ih (i + 1) v2 hrec]

/-- C8.  Constructing an `ExprVector<N>` from a `;`-delimited string
succeeds exactly when the string splits into `N` components that all
parse; when all components parse but the count is wrong, the failure is
`MismatchedExprCount`; concretely `1;0;0;1` as a 4-vector succeeds and
`1;0;0` as a 4-vector fails with `MismatchedExprCount`. -/
theorem C8_expr_vector_arity :
    (∀ (n : Nat) (s : Str) (lua : LuaOracle),
      isOkE (mkExprVector n s lua) = true ↔
        ((splitOnCh ';' s).length = n ∧ partsAllParse lua 0 (splitOnCh ';' s) = true))
    ∧ (∀ (n : Nat) (s : Str) (lua : LuaOracle),
      partsAllParse lua 0 (splitOnCh ';' s) = true →
      (splitOnCh ';' s).length ≠ n →
      mkExprVector n s lua = .error .MismatchedExprCount)
    ∧ isOkE (mkExprVector 4 ['1', ';', '0', ';', '0', ';', '1'] luaOff) = true
    ∧ mkExprVector 4 ['1', ';', '0', ';', '0'] luaOff = .error .MismatchedExprCount := by
  refine ⟨?_, ?_, by rfl, by rfl⟩
  · intro n s lua
    unfold mkExprVector parseExpressionList
    cases hv : parseExprListAux lua 0 (splitOnCh ';' s) with
    | error e =>
      have hfalse : partsAllParse lua 0 (splitOnCh ';' s) = false := by
        rw [← parseExprListAux_isOk, hv]
        rfl
      simp [isOkE, hfalse]
    | ok v =>
      have hlen := parseExprListAux_length lua 0 _ v hv
      have hp : partsAllParse lua 0 (splitOnCh ';' s) = true := by
        rw [← parseExprListAux_isOk, hv]
        rfl
      rw [hp]
      simp only [exprVectorTryFrom, and_true]
      by_cases hn : v.length = n
      · rw [if_pos hn, ← hlen]
        simp [isOkE, hn]
      · rw [if_neg hn, ← hlen]
        simp [isOkE, hn]
  · intro n s lua hall hne
    unfold mkExprVector parseExpressionList
    cases hv : parseExprListAux lua 0 (splitOnCh ';' s) with
    | error e =>
      exfalso
      rw [← parseExprListAux_isOk, hv] at hall
      exact absurd hall (by simp [isOkE])
    | ok v =>
      have hlen := parseExprListAux_length lua 0 _ v hv
      simp only [exprVectorTryFrom]
      rw [if_neg (by rw [hlen]; exact hne)]

/-- Witness for C8 at the wrong-arity input `1;0;0` against `N = 4`. -/
theorem C8_expr_vector_arity_witness :
    partsAllParse luaOff 0 (splitOnCh ';' ['1', ';', '0', ';', '0']) = true
    ∧ (splitOnCh ';' ['1', ';', '0', ';', '0']).length ≠ 4
    ∧ mkExprVector 4 ['1', ';', '0', ';', '0'] luaOff = .error .MismatchedExprCount :=
  ⟨by rfl, by decide,
    C8_expr_vector_arity.2.1 4 ['1', ';', '0', ';', '0'] luaOff (by rfl) (by decide)⟩

/-- C10 (amended).  The stage structure of `res_dependent_expr`: a math
PARSE failure returns a lone `SyntaxError` immediately, without consulting
Lua; only a BIND failure falls back to compiling the original string as
Lua; when both the bind and the Lua compile fail, the error is a
`MultiError` of exactly the bind diagnostic and the Lua diagnostic; a
bind-failing string that Lua loads constructs successfully as a Lua
expression; and a bind-succeeding string constructs as a math
expression. -/
theorem C10_lua_fallback_stages :
    ∀ (e : Str) (ty : ResExprType) (lua : LuaOracle) (ast : MExpr) (pd bd le : String)
      (f : LuaFn),
      (mparseExpr (replacePercent ty e) = .error pd →
        resDependentExpr e ty lua = .error (.SyntaxError "" "" (some pd)))
      ∧ (mparseExpr (replacePercent ty e) = .ok ast → bindCheckE ast = .error bd →
          lua e = .error le →
          resDependentExpr e ty lua
            = .error (.MultiError [.SyntaxError "" "" (some bd), .LuaError le]))
      ∧ (mparseExpr (replacePercent ty e) = .ok ast → bindCheckE ast = .error bd →
          lua e = .ok f →
          resDependentExpr e ty lua = .ok (.LuaExpr f e))
      ∧ (mparseExpr (replacePercent ty e) = .ok ast → bindCheckE ast = .ok () →
          resDependentExpr e ty lua = .ok (.MathExpr ast (replacePercent ty e) ty)) := by
  intro e ty lua ast pd bd le f
  refine ⟨?_, ?_, ?_, ?_⟩
  · intro h1
    unfold resDependentExpr
    simp only [h1]
  · intro h1 h2 h3
    unfold resDependentExpr
    simp only [h1, h2, h3]
  · intro h1 h2 h3
    unfold resDependentExpr
    simp only [h1, h2, h3]
  · intro h1 h2
    unfold resDependentExpr
    simp only [h1, h2]

/-- A Lua collaborator that compiles every chunk. -/
def luaAll : LuaOracle := fun _ => .ok 0

/-- Counterexample to C10 as stated: `return 1` is rejected by the math
PARSER (not the bind), so `res_dependent_expr` returns a lone
`SyntaxError` without ever consulting Lua — even against a Lua
collaborator that loads every chunk, construction fails, and the error is
not a `MultiError` of two diagnostics. -/
theorem C10_counterexample :
    isSyntaxErrorOnly
      (resDependentExpr ['r', 'e', 't', 'u', 'r', 'n', ' ', '1'] .WidthBased luaAll)
      = true := by rfl

/-- Witness for C10 at `e = w` (parse and bind both succeed). -/
theorem C10_lua_fallback_stages_witness :
    mparseExpr (replacePercent .WidthBased ['w']) = .ok (.var ['w'])
    ∧ bindCheckE (.var ['w']) = .ok ()
    ∧ resDependentExpr ['w'] .WidthBased luaOff
      = .ok (.MathExpr (.var ['w']) (replacePercent .WidthBased ['w']) .WidthBased) :=
  ⟨by rfl, by rfl,
    (C10_lua_fallback_stages ['w'] .WidthBased luaOff (.var ['w']) "" "" "" 0).2.2.2
      (by rfl) (by rfl)⟩
